import Mathlib

/-!
Verification of the markdown-db incremental index and markdown pipeline.

The definitions below are shallow embeddings of the Rust sources
(src/index.rs, src/markdown.rs, src/obsidian.rs, src/markdown/source.rs).
Timestamps are naturals; SQLite rows are Lean structures and SQL statements
become pure functions over the table contents, following the documented
SQLite semantics: NOT NULL checks happen before uniqueness-conflict
resolution, last_insert_rowid changes only on an actual INSERT (not on the
DO UPDATE branch of an upsert), and a query without ORDER BY produces its
rows in storage order.  String processing is done over character lists with
structurally recursive helpers so that every definition evaluates inside
the kernel.
-/

namespace MarkdownDb

/-- Split a character list into the maximal runs of characters satisfying
the predicate; every character failing the predicate is a separator and
empty runs between consecutive separators are kept (Rust str::split
semantics). -/
def splitRuns (p : Char → Bool) : List Char → List (List Char)
  | [] => [[]]
  | c :: rest =>
    if p c then
      match splitRuns p rest with
      | [] => [[c]]
      | t :: ts => (c :: t) :: ts
    else [] :: splitRuns p rest

/-- Split at every occurrence of a separator character, keeping empty
segments, exactly as Rust str::split(sep) does. -/
def splitChar (sep : Char) (cs : List Char) : List (List Char) :=
  splitRuns (fun c => c != sep) cs

/-- Split at the first occurrence of a separator character, as Rust
str::splitn(2, sep): none when the separator does not occur. -/
def splitFirst (sep : Char) : List Char → Option (List Char × List Char)
  | [] => none
  | c :: rest =>
    if c = sep then some ([], rest)
    else (splitFirst sep rest).map (fun p => (c :: p.1, p.2))

/-- Rust str::trim over a character list: drop whitespace from both ends. -/
def trimChars (cs : List Char) : List Char :=
  ((cs.dropWhile Char.isWhitespace).reverse.dropWhile Char.isWhitespace).reverse

/-! ## Front matter (src/markdown.rs, struct FrontMatter) -/

/-- The fields of FrontMatter: title, doc_type (serde-renamed "type") and
tags, each optional. -/
structure FrontMatter where
  title : Option String
  docType : Option String
  tags : Option (List String)
deriving DecidableEq, Repr

/-- The YAML value found under the tags key, as seen by the serde
deserializer in FrontMatter::maybe_vec_of_strings: a scalar string, a
sequence (inline and indented YAML sequences are both this case), or a
null value (a bare `tags:` key). -/
inductive TagsValue where
  | str (s : String)
  | seq (xs : List String)
  | nullV
deriving DecidableEq, Repr

/-- The character substitution of value.replace(',', " "). -/
def commaToSpace (c : Char) : Char :=
  if c = ',' then ' ' else c

/-- The visit_str branch of maybe_vec_of_strings: replace every comma by a
space, split on single spaces, and drop the empty tokens. -/
def visitStr (s : String) : List String :=
  ((splitChar ' ' (s.toList.map commaToSpace)).filter
      (fun t => t ≠ [])).map (fun cs => String.mk cs)

/-- FrontMatter::maybe_vec_of_strings: a string is tokenized by visit_str,
a sequence is taken verbatim (visit_seq), and any input the visitor cannot
handle (such as the null of a bare key) becomes None through the
`Ok(match ... { Ok(result) => result, _ => None })` wrapper. -/
def maybeVecOfStrings : TagsValue → Option (List String)
  | .str s => some (visitStr s)
  | .seq xs => some xs
  | .nullV => none

/-- The whole tags field: an absent key defaults to None
(#[serde(default)]); a present key goes through maybe_vec_of_strings. -/
def parseTagsField : Option TagsValue → Option (List String)
  | none => none
  | some v => maybeVecOfStrings v

/-! ## Links and type resolution (src/markdown.rs, struct Link, Document) -/

/-- A Link as collected by Node::links: display text, target url, title. -/
structure Link where
  text : String
  url : String
  title : String
deriving DecidableEq, Repr

/-- Whether Url::parse would accept the string: it starts with a scheme,
a non-empty run of letters followed by a colon.  (Models the external url
crate; only the aspects Link::meta depends on are reproduced, and
percent-decoding of query values is elided — no input in this file uses
encoded characters.) -/
def hasScheme (cs : List Char) : Bool :=
  match splitFirst ':' cs with
  | some (head, _) => head ≠ [] && head.all Char.isAlpha
  | none => false

/-- Link::meta: when the url parses, collect its query pairs, take the
value of the "path" parameter (the HashMap keeps the last duplicate) and
split it at the first '='; when the url does not parse, split the whole
url at the first '='.  Either way, no '=' means no meta pair. -/
def linkMeta (url : String) : Option (String × String) :=
  let cs := url.toList
  if hasScheme cs then
    let q := match splitFirst '?' cs with
      | some (_, rest) => rest
      | none => []
    let pairs := (splitChar '&' q).map (fun p =>
      match splitFirst '=' p with
      | some (k, v) => (k, v)
      | none => (p, []))
    match pairs.reverse.find? (fun p => p.1 = "path".toList) with
    | some (_, v) =>
      match splitFirst '=' v with
      | some (k, w) => some (String.mk k, String.mk w)
      | none => none
    | none => none
  else
    match splitFirst '=' cs with
    | some (k, v) => some (String.mk k, String.mk v)
    | none => none

/-- The parse artifacts of a Document that type resolution reads: the
extracted front matter (if any) and the collected links. -/
structure ParsedDoc where
  frontMatter : Option FrontMatter
  links : List Link
deriving DecidableEq, Repr

/-- Document::type_from_link: filter the links whose meta pair exists and
has key "type", and return the value of the first one. -/
def typeFromLink (d : ParsedDoc) : Option String :=
  match d.links.filter (fun l => (linkMeta l.url).any (fun m => m.1 == "type")) with
  | [] => none
  | l :: _ => (linkMeta l.url).map (fun m => m.2)

/-- Document::doc_type: when front matter exists, its doc_type (even when
that is absent); only when there is no front matter at all does the link
fallback run. -/
def docType (d : ParsedDoc) : Option String :=
  match d.frontMatter with
  | some fm => fm.docType
  | none => typeFromLink d

/-! ## Obsidian dialect transform (src/obsidian.rs, Obsidian::parse) -/

/-- The sentinel url installed by the broken-link callback
(bytes F0 9F 94 97 21 21). -/
def MARKER : String := "🔗!!"

/-- An inline node of a paragraph as the rewrite pass sees it.  Link
children are modelled as their child text runs: for the links produced by
the broken-link callback the children are exactly the literal text nodes
of the unresolved label, which is all the source's child loop (which only
touches NodeValue::Text children) distinguishes. -/
inductive Inline where
  | text (s : String)
  | link (url : String) (title : String) (children : List String)
deriving DecidableEq, Repr

/-- The alias-substitution loop: every text child is cleared and refilled
with parts.remove(0); when the parts run out first, remove(0) panics in
the source, modelled as none. -/
def rewriteChildren : List String → List String → Option (List String)
  | _, [] => some []
  | [], _ :: _ => none
  | p :: ps, _ :: cs => (rewriteChildren ps cs).map (fun rest => p :: rest)

/-- Rewrite one marker link: take the concatenated text of its children,
split it on every '|' and trim each part; the first part becomes the
obsidian target url, the title is cleared, and when alias parts remain
they replace the text children in order. -/
def rewriteLink (children : List String) : Option (String × List String) :=
  let txt := String.join children
  match (splitChar '|' txt.toList).map (fun p => String.mk (trimChars p)) with
  | [] => none
  | target :: aliases =>
    let url := "obsidian://open?path=" ++ target
    if aliases.isEmpty then some (url, children)
    else (rewriteChildren aliases children).map (fun cs => (url, cs))

/-- The post-parse pass over a paragraph's inline children, in document
order, with the accumulator holding the already-processed nodes in
reverse.  At a marker link, when the previous sibling is a text ending in
the byte '[' and the next sibling is a text starting with the byte ']',
those two bracket characters are consumed as part of the link delimiter
(previous_text.pop / next_text.remove(0)); then the link itself is
rewritten.  A text sibling following a link is emitted together with the
link — the source's loop visits only link nodes, so a text node is never
itself processed and this keeps the recursion structural; a later marker
link still sees that (possibly bracket-stripped) text as its previous
sibling at the accumulator's head. -/
def rewritePass (out : List Inline) : List Inline → Option (List Inline)
  | [] => some out.reverse
  | .text s :: rest => rewritePass (.text s :: out) rest
  | .link u t cs :: .text n :: rest =>
    if u = MARKER then
      match rewriteLink cs with
      | none => none
      | some (u', cs') =>
        match out with
        | .text p :: outTail =>
          if p.toList.getLast? = some '[' ∧ n.toList.head? = some ']' then
            rewritePass (.text (String.mk (n.toList.drop 1)) ::
              .link u' "" cs' :: .text (String.mk p.toList.dropLast) :: outTail) rest
          else rewritePass (.text n :: .link u' "" cs' :: out) rest
        | _ => rewritePass (.text n :: .link u' "" cs' :: out) rest
    else rewritePass (.text n :: .link u t cs :: out) rest
  | .link u t cs :: rest =>
    if u = MARKER then
      match rewriteLink cs with
      | none => none
      | some (u', cs') => rewritePass (.link u' "" cs' :: out) rest
    else rewritePass (.link u t cs :: out) rest

/-- Obsidian::parse's rewrite of the inline children of a paragraph, after
the permissive parse. -/
def obsidianRewrite (inlines : List Inline) : Option (List Inline) :=
  rewritePass [] inlines

/-- Modelled from the spec: the external permissive CommonMark parser
(comrak with the broken-link callback) resolves the input [[t]] as a
literal text "[", an unmatched shortcut link reference for the inner [t]
— which the callback turns into a link with url MARKER, title t and the
label t as its single text child — and a literal text "]". -/
def comrakWikiInlines (t : String) : List Inline :=
  [.text "[", .link MARKER t [t], .text "]"]

/-! ## The persisted store (src/index.rs, create_schema) -/

/-- A row of the documents table: id INTEGER PRIMARY KEY, uri TEXT NOT
NULL UNIQUE, type TEXT, title TEXT NOT NULL, markdown TEXT NOT NULL,
created/modified/last_seen_at TIMESTAMP NOT NULL. -/
structure IndexRecord where
  id : Nat
  uri : String
  docType : Option String
  title : String
  markdown : String
  created : Nat
  modified : Nat
  lastSeenAt : Nat
deriving DecidableEq, Repr

/-- A row of the word_index fts5 table: document_id UNINDEXED, title,
text.  The title column is bound from document.title() and may be NULL. -/
structure WordIndexRecord where
  documentId : Nat
  title : Option String
  text : String
deriving DecidableEq, Repr

/-- The two tables, each as a list in storage (rowid) order. -/
structure Store where
  documents : List IndexRecord
  wordIndex : List WordIndexRecord
deriving DecidableEq, Repr

/-- A database connection: the store plus the connection-level
last_insert_rowid value, which SQLite updates only on an actual INSERT. -/
structure Conn where
  store : Store
  lastInsertRowid : Nat
deriving DecidableEq, Repr

/-- The document interface consumed by refresh_ (src/markdown.rs,
Document): uri(), title(), doc_type(), markdown(), created(), modified(),
text() and front_matter().  Sources that lack a capability (the literal
in-memory string sources lack title, created and modified) yield none. -/
structure Doc where
  uri : String
  title : Option String
  docType : Option String
  markdown : String
  created : Option Nat
  modified : Option Nat
  text : String
  frontMatter : Option FrontMatter
deriving DecidableEq, Repr

/-- The storage errors the refresh path can raise. -/
inductive SqlErr where
  | notNullViolation (column : String)
deriving DecidableEq, Repr

/-! ## Incremental refresh (src/index.rs, refresh / refresh_) -/

/-- UPDATE documents SET last_seen_at = ?1 WHERE uri = ?2 AND
modified >= ?3 — returns the updated table and the number of rows
changed, which execute() reports. -/
def updateUnmodifiedDocument (docs : List IndexRecord) (ts : Nat)
    (uri : String) (modified : Nat) : List IndexRecord × Nat :=
  (docs.map (fun r =>
      if r.uri == uri && decide (modified ≤ r.modified) then
        { r with lastSeenAt := ts }
      else r),
   docs.countP (fun r => r.uri == uri && decide (modified ≤ r.modified)))

/-- The rowid SQLite assigns to a fresh INSERT into a rowid table: one
more than the largest existing rowid. -/
def nextRowid (docs : List IndexRecord) : Nat :=
  (docs.map (fun r => r.id)).foldl max 0 + 1

/-- INSERT INTO documents (uri, title, type, markdown, created, modified,
last_seen_at) VALUES (...) ON CONFLICT(uri) DO UPDATE SET uri =
excluded.uri, last_seen_at = excluded.last_seen_at.

NOT NULL constraints are checked on the proposed row (in column order)
before the uniqueness conflict is resolved, so a NULL title, created or
modified always fails, even when the uri already exists.  On the DO
UPDATE branch only uri and last_seen_at are written and last_insert_rowid
keeps its previous value; only a fresh INSERT sets it. -/
def insertIntoDocuments (c : Conn) (d : Doc) (ts : Nat) : Except SqlErr Conn :=
  match d.title, d.created, d.modified with
  | none, _, _ => .error (.notNullViolation "title")
  | some _, none, _ => .error (.notNullViolation "created")
  | some _, some _, none => .error (.notNullViolation "modified")
  | some title, some created, some modified =>
  if c.store.documents.any (fun r => r.uri == d.uri) then
    let docs := c.store.documents.map (fun r =>
      if r.uri == d.uri then { r with uri := d.uri, lastSeenAt := ts } else r)
    .ok { c with store := { c.store with documents := docs } }
  else
    let id := nextRowid c.store.documents
    let row : IndexRecord :=
      { id, uri := d.uri, docType := d.docType, title,
        markdown := d.markdown, created, modified, lastSeenAt := ts }
    .ok { store := { c.store with documents := c.store.documents ++ [row] },
          lastInsertRowid := id }

/-- The hash-qualified tag string: front_matter().tags() rendered as
"#tag" tokens joined by spaces, or "" when the front matter or its tags
are absent. -/
def tagsString (d : Doc) : String :=
  match d.frontMatter with
  | some fm =>
    match fm.tags with
    | some ts => String.intercalate " " (ts.map (fun tag => "#" ++ tag))
    | none => ""
  | none => ""

/-- The searchable text inserted into word_index:
format!("{} {} {}", title.unwrap_or(""), text, tags). -/
def wordIndexText (d : Doc) : String :=
  (d.title.getD "") ++ " " ++ d.text ++ " " ++ tagsString d

/-- The body of refresh_'s per-document loop: when the document reports a
modification timestamp and the single-row fast-path UPDATE hits, nothing
else happens; otherwise the upsert runs, SELECT last_insert_rowid() is
read, the word-index rows with that document_id are deleted and a fresh
word-index row with that document_id is inserted. -/
def processDocument (ts : Nat) (c : Conn) (d : Doc) : Except SqlErr Conn :=
  let (c, fast) :=
    match d.modified with
    | none => (c, false)
    | some m =>
      let (docs, n) := updateUnmodifiedDocument c.store.documents ts d.uri m
      ({ c with store := { c.store with documents := docs } }, n == 1)
  if fast then
    .ok c
  else
    match insertIntoDocuments c d ts with
    | .error e => .error e
    | .ok c =>
      let id := c.lastInsertRowid
      let wi := c.store.wordIndex.filter (fun w => w.documentId ≠ id)
      .ok { c with store := { c.store with wordIndex :=
        wi ++ [{ documentId := id, title := d.title, text := wordIndexText d }] } }

/-- After the loop: DELETE FROM documents WHERE last_seen_at < ?1, then
DELETE FROM word_index WHERE NOT EXISTS (SELECT 1 FROM documents WHERE
documents.id = word_index.document_id). -/
def pruneStore (s : Store) (ts : Nat) : Store :=
  let docs := s.documents.filter (fun r => !decide (r.lastSeenAt < ts))
  { documents := docs,
    wordIndex := s.wordIndex.filter (fun w => docs.any (fun r => r.id == w.documentId)) }

/-- The inner for loop of refresh_ over one collection's documents; the ?
operator propagates the first error. -/
def foldDocs (ts : Nat) : Conn → List Doc → Except SqlErr Conn
  | c, [] => .ok c
  | c, d :: ds =>
    match processDocument ts c d with
    | .error e => .error e
    | .ok c' => foldDocs ts c' ds

/-- The outer for loop of refresh_ over all collections. -/
def foldCollections (ts : Nat) : Conn → List (List Doc) → Except SqlErr Conn
  | c, [] => .ok c
  | c, coll :: colls =>
    match foldDocs ts c coll with
    | .error e => .error e
    | .ok c' => foldCollections ts c' colls

/-- refresh_: iterate every collection's documents through the
per-document step, then prune, all inside the surrounding transaction. -/
def refresh_ (c : Conn) (collections : List (List Doc)) (ts : Nat) :
    Except SqlErr Conn :=
  match foldCollections ts c collections with
  | .error e => .error e
  | .ok c => .ok { c with store := pruneStore c.store ts }

/-- refresh: open a transaction, run refresh_, and commit only on
success; on an error the transaction is dropped uncommitted and the store
rolls back to its prior state.  (SQLite would let the connection-level
last_insert_rowid keep values set inside the aborted transaction; it is
restored here for simplicity and no theorem below depends on it.) -/
def refresh (c : Conn) (collections : List (List Doc)) (ts : Nat) :
    Conn × Option SqlErr :=
  match refresh_ c collections ts with
  | .ok c' => (c', none)
  | .error e => (c, some e)

/-- SELECT COUNT(*) FROM documents. -/
def storeSize (s : Store) : Nat :=
  s.documents.length

/-! ## Search (src/index.rs, Index::search)

The full-text engine itself is external (SQLite fts5); per §1 of the spec
the system delegates tokenization and ranking to it.  Its observable
behavior is modelled below: the unicode61 tokenizer with tokenchars '-#'
(porter stemming and diacritic folding elided — no input here exercises
them), prefix matching for the quoted, star-suffixed terms the code
builds, a bm25-style rank where more occurrences give a smaller (better)
value, and — per the SQLite documentation — rows of a MATCH query without
ORDER BY delivered in storage order, not rank order. -/

/-- Modelled from the spec: a token character of the unicode61 tokenizer
with tokenchars '-#'. -/
def isTokenChar (c : Char) : Bool :=
  c.isAlphanum || c == '-' || c == '#'

/-- Modelled from the spec: tokenize a column's content into lowercased
maximal token-character runs. -/
def engineTokens (s : String) : List String :=
  ((splitRuns isTokenChar s.toList).filter (fun t => t ≠ [])).map
    (fun cs => String.mk (cs.map Char.toLower))

/-- The query terms: search splits the query on ' ' and turns every part
into a quoted, star-suffixed prefix term. -/
def searchTerms (query : String) : List String :=
  (splitChar ' ' query.toList).map (fun cs => String.mk cs)

/-- The two column scopes the code queries: {title} and {text}. -/
inductive SearchColumn where
  | title
  | text
deriving DecidableEq, Repr

/-- The content the engine indexes for a word-index row under a column
scope (a NULL title behaves as empty). -/
def columnContent (col : SearchColumn) (w : WordIndexRecord) : String :=
  match col with
  | .title => w.title.getD ""
  | .text => w.text

/-- Modelled from the spec: a star-suffixed term matches a row when some
token of the scoped column extends the lowercased term. -/
def termMatchesText (term : String) (content : String) : Bool :=
  (engineTokens content).any (fun tok => (term.toList.map Char.toLower).isPrefixOf tok.toList)

/-- A row satisfies the conjunctive match expression when every term
matches the scoped column. -/
def rowMatchesQuery (col : SearchColumn) (terms : List String) (w : WordIndexRecord) : Bool :=
  terms.all (fun t => termMatchesText t (columnContent col w))

/-- Modelled from the spec: the engine's relevance rank for a matching
row — bm25-style, more term occurrences give a smaller value, so that
ascending rank order is best-first. -/
def engineRank (col : SearchColumn) (terms : List String) (w : WordIndexRecord) : Int :=
  - (terms.foldl (fun a t =>
      a + ((engineTokens (columnContent col w)).countP
            (fun tok => (t.toList.map Char.toLower).isPrefixOf tok.toList))) 0)

/-- The statement SELECT uri, documents.title, markdown, type, rank FROM
documents JOIN word_index ON word_index.document_id = documents.id WHERE
word_index MATCH ?1 — no ORDER BY, so the rows come in word-index storage
order, each matching row joined to its documents row by id. -/
def matchWordIndex (s : Store) (col : SearchColumn) (terms : List String) :
    List (WordIndexRecord × IndexRecord) :=
  s.wordIndex.filterMap (fun w =>
    if rowMatchesQuery col terms w then
      (s.documents.find? (fun r => r.id == w.documentId)).map (fun r => (w, r))
    else none)

/-- The Entry struct: title, url, type, markdown (rank is selected but
never read by build_entry). -/
structure Entry where
  title : String
  url : String
  docType : Option String
  markdown : String
deriving DecidableEq, Repr

/-- build_entry: Entry::new(row.uri, row.title, row.markdown, row.type). -/
def buildEntry (r : IndexRecord) : Entry :=
  { title := r.title, url := r.uri, docType := r.docType, markdown := r.markdown }

/-- Index::search: run the match statement once scoped to {title} and
once scoped to {text}, then append every text result not already
contained in the accumulated list (Entry equality is full-tuple
equality via derived PartialEq). -/
def search (s : Store) (query : String) : List Entry :=
  let terms := searchTerms query
  let titleResults := (matchWordIndex s .title terms).map (fun p => buildEntry p.2)
  let textResults := (matchWordIndex s .text terms).map (fun p => buildEntry p.2)
  textResults.foldl (fun acc r => if acc.contains r then acc else acc ++ [r]) titleResults

/-! ## Specification-side definitions

These follow the wording of the specification rather than the code; the
theorems below compare the code-derived definitions against them. -/

/-- The merge described by the spec for search: append, to an existing
list, those elements not already present, presence being decided against
everything accumulated so far. -/
def appendNotPresent (base : List Entry) : List Entry → List Entry
  | [] => []
  | e :: rest =>
    if base.contains e then appendNotPresent base rest
    else e :: appendNotPresent (base ++ [e]) rest

/-- The spec's wording of the type fallback: the value encoded by the
first link in the document whose meta key equals "type". -/
def firstTypeLinkValue (links : List Link) : Option String :=
  (links.find? (fun l => (linkMeta l.url).any (fun m => m.1 == "type"))).bind
    (fun l => (linkMeta l.url).map (fun m => m.2))

/-- Join character-list tokens with the delimiter ", " (a comma and a
space — two separator characters in a row, exercising the spec's
"repeated separators collapsed"). -/
def joinSep : List (List Char) → List Char
  | [] => []
  | [x] => x
  | x :: y :: tl => x ++ ',' :: ' ' :: joinSep (y :: tl)

/-- A delimiter-separated tags string built from individual tags. -/
def sepJoin (xs : List String) : String :=
  String.mk (joinSep (xs.map (fun x => x.toList)))

/-- Genuine tag tokens: non-empty and free of the separator characters. -/
def wellFormedTags (xs : List String) : Prop :=
  ∀ x ∈ xs, x.toList ≠ [] ∧ ' ' ∉ x.toList ∧ ',' ∉ x.toList

/-! ## Concrete scenarios used by the witnesses and counterexamples -/

/-- A connection holding a freshly created empty store. -/
def emptyConn : Conn :=
  { store := { documents := [], wordIndex := [] }, lastInsertRowid := 0 }

/-- A store holding one document with uri "a", as left by a refresh that
inserted it (last_insert_rowid 1). -/
def conn0 : Conn :=
  { store := { documents := [{ id := 1, uri := "a", docType := none, title := "Old A",
                               markdown := "old", created := 1, modified := 1, lastSeenAt := 1 }],
               wordIndex := [{ documentId := 1, title := some "Old A", text := "Old A alpha " }] },
    lastInsertRowid := 1 }

/-- The edited version of document "a": newer modification time, new
title, markdown and text. -/
def docA : Doc :=
  { uri := "a", title := some "New A", docType := none, markdown := "new",
    created := some 1, modified := some 2, text := "alpha", frontMatter := none }

/-- A second document "b", unchanged relative to the stores that contain
it. -/
def docB : Doc :=
  { uri := "b", title := some "B", docType := none, markdown := "mdB",
    created := some 3, modified := some 3, text := "beta", frontMatter := none }

/-- One collection enumerating the edited "a" and the unchanged "b". -/
def refreshCols : List (List Doc) := [[docA, docB]]

/-- A store holding both documents, as left by a refresh that inserted
"a" then "b" (last_insert_rowid 2), before "a" was edited. -/
def connAB : Conn :=
  { store := { documents := [{ id := 1, uri := "a", docType := none, title := "Old A",
                               markdown := "old", created := 1, modified := 1, lastSeenAt := 1 },
                             { id := 2, uri := "b", docType := none, title := "B",
                               markdown := "mdB", created := 3, modified := 3, lastSeenAt := 1 }],
               wordIndex := [{ documentId := 1, title := some "Old A", text := "Old A alpha " },
                             { documentId := 2, title := some "B", text := "B beta " }] },
    lastInsertRowid := 2 }

/-- A store whose single record for uri "c" carries modified = 5. -/
def connC : Conn :=
  { store := { documents := [{ id := 1, uri := "c", docType := none, title := "C",
                               markdown := "mdC", created := 1, modified := 5, lastSeenAt := 1 }],
               wordIndex := [{ documentId := 1, title := some "C", text := "C ctext " }] },
    lastInsertRowid := 1 }

/-- A document whose source reports no title and no created timestamp but
does report modified = 3, older than connC's stored record. -/
def docNoTitle : Doc :=
  { uri := "c", title := none, docType := none, markdown := "m",
    created := none, modified := some 3, text := "t", frontMatter := none }

/-- A document as produced by a literal in-memory string source: no
title, no created, no modified. -/
def docLiteral : Doc :=
  { uri := "m", title := none, docType := none, markdown := "lit",
    created := none, modified := none, text := "lit", frontMatter := none }

/-- Three word-index rows whose storage order (1, 2, 3) agrees neither
with ascending nor with descending rank for the query "common": their
ranks are -1, -3 and -2. -/
def cexStore : Store :=
  { documents := [{ id := 1, uri := "u1", docType := none, title := "zzz common",
                    markdown := "m1", created := 0, modified := 0, lastSeenAt := 0 },
                  { id := 2, uri := "u2", docType := none, title := "common common common",
                    markdown := "m2", created := 0, modified := 0, lastSeenAt := 0 },
                  { id := 3, uri := "u3", docType := none, title := "common common zzz",
                    markdown := "m3", created := 0, modified := 0, lastSeenAt := 0 }],
    wordIndex := [{ documentId := 1, title := some "zzz common", text := "x" },
                  { documentId := 2, title := some "common common common", text := "x" },
                  { documentId := 3, title := some "common common zzz", text := "x" }] }

/-- Front matter that exists but declares no type. -/
def fmNoType : FrontMatter :=
  { title := some "T", docType := none, tags := none }

/-- A wiki link encoding type=person, as the Obsidian dialect produces. -/
def typeLinkCex : Link :=
  { text := "person", url := "obsidian://open?path=type=person", title := "" }

/-- The connection state produced by refresh_ on an empty store with the
single-document collection [[docB]] at timestamp 7. -/
def c3Result : Conn :=
  { store := { documents := [{ id := 1, uri := "b", docType := none, title := "B",
                               markdown := "mdB", created := 3, modified := 3, lastSeenAt := 7 }],
               wordIndex := [{ documentId := 1, title := some "B", text := "B beta " }] },
    lastInsertRowid := 1 }

/-! ## Theorems -/

/-- C8: the dialect transform rewrites [[WikiLink]] to a link displaying
"WikiLink" whose target references "WikiLink", rewrites
[[WikiLink|Alias]] to a link displaying "Alias" whose target still
references "WikiLink", and consumes the literal square brackets around
the unmatched link reference as part of the link delimiter (both
surrounding text nodes end up empty) rather than leaving them as literal
text. -/
theorem wiki_link_rewrite_literals :
    obsidianRewrite (comrakWikiInlines "WikiLink") =
      some [.text "", .link "obsidian://open?path=WikiLink" "" ["WikiLink"], .text ""] ∧
    obsidianRewrite (comrakWikiInlines "WikiLink|Alias") =
      some [.text "", .link "obsidian://open?path=WikiLink" "" ["Alias"], .text ""] := by
  decide

/-- C1 (code divergence, evaluated at the failing input): re-indexing the
edited document "a" whose uri already exists leaves the stored record's
title, markdown, created and modified untouched (only last_seen_at moves),
and the freshly inserted word-index row carries document_id 2 — the stale
last_insert_rowid, which is the id of record "b", not of record "a" —
while record "b"'s own word-index row is destroyed and record "a"'s stale
one survives. -/
theorem reindex_upsert_keeps_old_fields_cex :
    docA.uri = "a" ∧ docA.title = some "New A" ∧ docA.markdown = "new" ∧
    (refresh connAB refreshCols 5).2 = none ∧
    (refresh connAB refreshCols 5).1.store.documents =
      [{ id := 1, uri := "a", docType := none, title := "Old A", markdown := "old",
         created := 1, modified := 1, lastSeenAt := 5 },
       { id := 2, uri := "b", docType := none, title := "B", markdown := "mdB",
         created := 3, modified := 3, lastSeenAt := 5 }] ∧
    (refresh connAB refreshCols 5).1.store.wordIndex =
      [{ documentId := 1, title := some "Old A", text := "Old A alpha " },
       { documentId := 2, title := some "New A", text := "New A alpha " }] := by
  decide

/-- C2 (code divergence, evaluated at the failing input): two successive
refreshes over the same unchanged collection give the same document count
but different search results — the first refresh leaves "beta" findable
(document "b"), the second destroys document "b"'s word-index row because
the re-indexed document "a" now reads last_insert_rowid 2. -/
theorem refresh_twice_unchanged_not_idempotent_cex :
    (refresh conn0 refreshCols 5).2 = none ∧
    (refresh (refresh conn0 refreshCols 5).1 refreshCols 6).2 = none ∧
    storeSize ((refresh (refresh conn0 refreshCols 5).1 refreshCols 6).1.store) =
      storeSize ((refresh conn0 refreshCols 5).1.store) ∧
    search ((refresh conn0 refreshCols 5).1.store) "beta" =
      [{ title := "B", url := "b", docType := none, markdown := "mdB" }] ∧
    search ((refresh (refresh conn0 refreshCols 5).1 refreshCols 6).1.store) "beta" = [] := by
  decide

/-- C4 (code divergence, evaluated at the failing input): document "b"
satisfies the fast-path precondition (it reports modified = 3 and its
stored record has modified = 3 >= 3), yet after the refresh its
word-index row is gone — it was deleted and replaced with document "a"'s
tokens when "a" was re-indexed through the stale last_insert_rowid. -/
theorem fast_path_word_index_clobbered_cex :
    docB.modified = some 3 ∧
    (connAB.store.documents.find? (fun r => r.uri == "b")).map (fun r => r.modified) =
      some 3 ∧
    ({ documentId := 2, title := some "B", text := "B beta " } : WordIndexRecord) ∈
      connAB.store.wordIndex ∧
    (refresh connAB refreshCols 5).2 = none ∧
    ({ documentId := 2, title := some "B", text := "B beta " } : WordIndexRecord) ∉
      (refresh connAB refreshCols 5).1.store.wordIndex := by
  decide

/-- C5 counterexample: at cexStore with query "common" the title-scoped
lookup returns its rows with ranks [-1, -3, -2] — word-index storage
order — which is neither ascending nor descending in the engine's rank,
so the rows are not "ordered by the engine's relevance rank". -/
theorem search_rows_not_rank_ordered_cex :
    ((matchWordIndex cexStore .title (searchTerms "common")).map
        (fun p => engineRank .title (searchTerms "common") p.1)) = [-1, -3, -2] ∧
    ¬ List.Sorted (fun a b => a ≤ b) ([-1, -3, -2] : List Int) ∧
    ¬ List.Sorted (fun a b => b ≤ a) ([-1, -3, -2] : List Int) := by
  decide

/-- C6 counterexample: a document whose front matter exists but declares
no type does NOT fall back to its type-encoding link: doc_type resolves
to none although the first link's meta is ("type", "person"). -/
theorem doc_type_front_matter_blocks_link_cex :
    docType { frontMatter := some fmNoType, links := [typeLinkCex] } = none ∧
    typeFromLink { frontMatter := some fmNoType, links := [typeLinkCex] } =
      some "person" := by
  decide

/-- C7 counterexample: a present-but-empty tags field does not always
normalize to absent — an empty string and an empty sequence both
normalize to some [], an empty list. -/
theorem empty_tags_value_not_absent_cex :
    parseTagsField (some (.str "")) = some [] ∧
    parseTagsField (some (.seq [])) = some [] ∧
    ¬ parseTagsField (some (.str "")) = none := by
  decide

/-- C10 counterexample: a document reporting no title and no created
timestamp but a modified timestamp older than its existing record's is
accepted through the unchanged fast path — refresh succeeds and the
document stays indexed, instead of returning an error. -/
theorem missing_title_fast_path_indexes_cex :
    docNoTitle.title = none ∧ docNoTitle.created = none ∧
    (refresh connC [[docNoTitle]] 8).2 = none ∧
    storeSize ((refresh connC [[docNoTitle]] 8).1.store) = 1 := by
  decide

/-- The push-append merge loop of search equals the spec-side
appendNotPresent merge. -/
theorem foldl_merge_eq (xs base : List Entry) :
    xs.foldl (fun acc r => if acc.contains r then acc else acc ++ [r]) base =
      base ++ appendNotPresent base xs := by
  induction xs generalizing base with
  | nil => simp [appendNotPresent]
  | cons e rest ih =>
    rw [List.foldl_cons]
    by_cases hm : e ∈ base
    · have h1 : (if base.contains e then base else base ++ [e]) = base := by simp [hm]
      rw [h1, ih base]
      simp [appendNotPresent, hm]
    · have h1 : (if base.contains e then base else base ++ [e]) = base ++ [e] := by simp [hm]
      rw [h1, ih (base ++ [e])]
      simp [appendNotPresent, hm, List.append_assoc]

/-- Projecting the word-index component out of a filterMap that pairs
each kept row with its joined document yields a sublist of the scanned
rows: the join preserves word-index storage order. -/
theorem filterMap_pair_fst_sublist {β : Type} (f : WordIndexRecord → Option β) :
    ∀ l : List WordIndexRecord,
      ((l.filterMap (fun w => (f w).map (fun r => (w, r)))).map Prod.fst).Sublist l := by
  intro l
  induction l with
  | nil => simp
  | cons w tl ih =>
    rw [List.filterMap_cons]
    cases hf : (f w).map (fun r => (w, r)) with
    | none =>
      exact ih.cons w
    | some p =>
      obtain ⟨r, hr, hp⟩ := Option.map_eq_some'.mp hf
      subst hp
      simpa using ih.cons₂ w

/-- matchWordIndex written with the condition pushed inside the pairing
map, pointwise identical. -/
theorem matchWordIndex_pair_form (s : Store) (col : SearchColumn) (terms : List String) :
    matchWordIndex s col terms = s.wordIndex.filterMap (fun w =>
      ((if rowMatchesQuery col terms w then
          s.documents.find? (fun r => r.id == w.documentId)
        else none).map (fun r => (w, r)))) := by
  unfold matchWordIndex
  congr 1
  funext w
  split <;> simp

/-- The rows of one lookup, projected to their word-index components,
form a sublist of the word-index table: storage order, nothing else. -/
theorem matchWordIndex_fst_sublist (s : Store) (col : SearchColumn) (terms : List String) :
    ((matchWordIndex s col terms).map Prod.fst).Sublist s.wordIndex := by
  rw [matchWordIndex_pair_form]
  exact filterMap_pair_fst_sublist _ s.wordIndex

/-- C5 (amended): search executes two lookups against the word index —
one scoped to the title field and one scoped to the text field — each
returning its rows in word-index storage order (the statement has no
ORDER BY), and the merged result is the title-field matches in that
order followed by those text-field matches not already present, presence
decided by equality of the full result tuple. -/
theorem search_merges_title_then_text (s : Store) (q : String) :
    search s q =
      ((matchWordIndex s .title (searchTerms q)).map (fun p => buildEntry p.2)) ++
        appendNotPresent
          ((matchWordIndex s .title (searchTerms q)).map (fun p => buildEntry p.2))
          ((matchWordIndex s .text (searchTerms q)).map (fun p => buildEntry p.2)) ∧
    ((matchWordIndex s .title (searchTerms q)).map Prod.fst).Sublist s.wordIndex ∧
    ((matchWordIndex s .text (searchTerms q)).map Prod.fst).Sublist s.wordIndex := by
  refine ⟨?_, matchWordIndex_fst_sublist s .title (searchTerms q),
    matchWordIndex_fst_sublist s .text (searchTerms q)⟩
  unfold search
  exact foldl_merge_eq _ _

/-- The filter-then-head chain of type_from_link picks the same link as
the spec's "first link whose meta key equals type". -/
theorem typeFromLink_eq_firstTypeLinkValue (d : ParsedDoc) :
    typeFromLink d = firstTypeLinkValue d.links := by
  unfold typeFromLink firstTypeLinkValue
  generalize d.links = ls
  induction ls with
  | nil => simp
  | cons l tl ih =>
    cases hp : (linkMeta l.url).any (fun m => m.1 == "type") with
    | true =>
      simp only [List.filter_cons, List.find?, hp]
      simp
    | false =>
      simp only [List.filter_cons, List.find?, hp]
      simpa using ih

/-- C6 (amended): the resolved doc_type is the front-matter type field
whenever front matter is present — even when that field is absent, in
which case the result is absent with no link fallback; only a document
with no front matter at all resolves through the value encoded by the
first link whose meta key equals "type". -/
theorem doc_type_resolution (d : ParsedDoc) :
    docType d =
      (match d.frontMatter with
       | some fm => fm.docType
       | none => firstTypeLinkValue d.links) := by
  unfold docType
  cases d.frontMatter with
  | some fm => rfl
  | none => exact typeFromLink_eq_firstTypeLinkValue d

/-- C3: after every completed refresh, no surviving IndexRecord has
last_seen_at older than the cycle timestamp (stale records are deleted),
and every surviving WordIndexRecord's document_id references a surviving
IndexRecord (orphans are pruned). -/
theorem refresh_prunes_stale_and_orphans (c : Conn) (cols : List (List Doc)) (ts : Nat)
    (c' : Conn) (h : refresh_ c cols ts = .ok c') :
    (∀ r ∈ c'.store.documents, ¬ r.lastSeenAt < ts) ∧
    (∀ w ∈ c'.store.wordIndex, ∃ r ∈ c'.store.documents, r.id = w.documentId) := by
  unfold refresh_ at h
  cases hm : foldCollections ts c cols with
  | error e =>
    rw [hm] at h
    exact absurd h (by simp)
  | ok cm =>
    rw [hm] at h
    injection h with h
    subst h
    constructor
    · intro r hr
      simp only [pruneStore] at hr
      have := List.of_mem_filter hr
      simpa using this
    · intro w hw
      simp only [pruneStore] at hw ⊢
      have := List.of_mem_filter hw
      rw [List.any_eq_true] at this
      obtain ⟨r, hrm, hre⟩ := this
      exact ⟨r, hrm, by simpa using hre⟩

/-- C3 witness: refresh_ on an empty store with the one-document
collection [[docB]] at timestamp 7 succeeds and its result satisfies both
pruning invariants. -/
theorem refresh_prunes_stale_and_orphans_witness :
    (∀ r ∈ c3Result.store.documents, ¬ r.lastSeenAt < 7) ∧
    (∀ w ∈ c3Result.store.wordIndex,
      ∃ r ∈ c3Result.store.documents, r.id = w.documentId) :=
  refresh_prunes_stale_and_orphans emptyConn [[docB]] 7 c3Result (by rfl)

/-- C9: when refresh returns an error the transaction was never
committed, so the visible connection state — documents and word index —
is exactly the state prior to the refresh call. -/
theorem refresh_error_rolls_back (c : Conn) (cols : List (List Doc)) (ts : Nat)
    (e : SqlErr) (h : (refresh c cols ts).2 = some e) :
    (refresh c cols ts).1 = c := by
  unfold refresh at h ⊢
  cases hm : refresh_ c cols ts with
  | ok c' =>
    rw [hm] at h
    exact absurd h (by simp)
  | error e' =>
    rfl

/-- C9 witness: refreshing conn0 over a collection holding the literal
in-memory document (which stores NULL into a NOT NULL column) fails, and
the resulting connection is exactly conn0. -/
theorem refresh_error_rolls_back_witness :
    (refresh conn0 [[docLiteral]] 9).2 = some (.notNullViolation "title") ∧
    (refresh conn0 [[docLiteral]] 9).1 = conn0 :=
  ⟨by decide, refresh_error_rolls_back conn0 [[docLiteral]] 9 (.notNullViolation "title")
    (by decide)⟩

/-- A document with no modification timestamp always takes the full
insert path and always fails a NOT NULL check there (modified is NOT
NULL, and the check precedes conflict resolution). -/
theorem processDocument_error_of_modified_none (ts : Nat) (c : Conn) (d : Doc)
    (h : d.modified = none) : ∃ e, processDocument ts c d = .error e := by
  cases ht : d.title with
  | none =>
    exact ⟨.notNullViolation "title", by simp [processDocument, insertIntoDocuments, h, ht]⟩
  | some t =>
    cases hc : d.created with
    | none =>
      exact ⟨.notNullViolation "created", by simp [processDocument, insertIntoDocuments, h, ht, hc]⟩
    | some t2 =>
      exact ⟨.notNullViolation "modified", by simp [processDocument, insertIntoDocuments, h, ht, hc]⟩

/-- The inner document loop fails whenever some document of the
collection reports no modification timestamp. -/
theorem foldDocs_error (ts : Nat) :
    ∀ (l : List Doc) (c : Conn), (∃ d ∈ l, d.modified = none) →
      ∃ e, foldDocs ts c l = .error e := by
  intro l
  induction l with
  | nil =>
    intro c hd
    obtain ⟨d, hdm, _⟩ := hd
    exact absurd hdm (by simp)
  | cons d0 tl ih =>
    intro c hd
    cases hp : processDocument ts c d0 with
    | error e => exact ⟨e, by simp [foldDocs, hp]⟩
    | ok c1 =>
      obtain ⟨d, hdm, hn⟩ := hd
      cases List.mem_cons.mp hdm with
      | inl heq =>
        subst heq
        obtain ⟨e, he⟩ := processDocument_error_of_modified_none ts c d hn
        rw [he] at hp
        exact absurd hp (by simp)
      | inr htl =>
        obtain ⟨e, he⟩ := ih c1 ⟨d, htl, hn⟩
        exact ⟨e, by simp [foldDocs, hp, he]⟩

/-- The outer collection loop fails whenever some collection holds a
document with no modification timestamp. -/
theorem foldCollections_error (ts : Nat) :
    ∀ (cols : List (List Doc)) (c : Conn),
      (∃ coll ∈ cols, ∃ d ∈ coll, d.modified = none) →
      ∃ e, foldCollections ts c cols = .error e := by
  intro cols
  induction cols with
  | nil =>
    intro c hd
    obtain ⟨coll, hcm, _⟩ := hd
    exact absurd hcm (by simp)
  | cons coll0 tl ih =>
    intro c hd
    cases hp : foldDocs ts c coll0 with
    | error e => exact ⟨e, by simp [foldCollections, hp]⟩
    | ok c1 =>
      obtain ⟨coll, hcm, hin⟩ := hd
      cases List.mem_cons.mp hcm with
      | inl heq =>
        subst heq
        obtain ⟨e, he⟩ := foldDocs_error ts coll c hin
        rw [he] at hp
        exact absurd hp (by simp)
      | inr htl =>
        obtain ⟨e, he⟩ := ih c1 ⟨coll, htl, hin⟩
        exact ⟨e, by simp [foldCollections, hp, he]⟩

/-- C10 (amended): every document reporting no modification timestamp —
which is what the literal in-memory string sources do, reporting no
title, created or modified — forces the full insert path, which attempts
to store NULL into a NOT NULL column, so the whole refresh returns an
error with the store rolled back; a document missing only title or
created can instead be accepted unchanged through the fast path when an
up-to-date record with its uri exists. -/
theorem refresh_errors_without_modified (c : Conn) (cols : List (List Doc)) (ts : Nat)
    (h : ∃ coll ∈ cols, ∃ d ∈ coll, d.modified = none) :
    ∃ e, refresh c cols ts = (c, some e) := by
  obtain ⟨e, he⟩ := foldCollections_error ts cols c h
  exact ⟨e, by simp [refresh, refresh_, he]⟩

/-- C10 witness: the literal in-memory document (no title, created or
modified) makes refresh fail on conn0. -/
theorem refresh_errors_without_modified_witness :
    docLiteral.modified = none ∧
    ∃ e, refresh conn0 [[docLiteral]] 11 = (conn0, some e) :=
  ⟨rfl, refresh_errors_without_modified conn0 [[docLiteral]] 11 (by decide)⟩

/-- Splitting a separator-free list yields the single segment. -/
theorem splitChar_no_sep (sep : Char) (t : List Char) (h : sep ∉ t) :
    splitChar sep t = [t] := by
  induction t with
  | nil => rfl
  | cons c r ih =>
    have hc : (c != sep) = true := by
      simp only [bne_iff_ne]
      exact fun e => h (e ▸ List.mem_cons_self c r)
    have hr : sep ∉ r := fun m => h (List.mem_cons_of_mem c m)
    simp only [splitChar, splitRuns, hc, if_true]
    rw [show splitRuns (fun c => c != sep) r = splitChar sep r from rfl, ih hr]

/-- Splitting a list starting with the separator emits a leading empty
segment. -/
theorem splitChar_cons_sep (sep : Char) (r : List Char) :
    splitChar sep (sep :: r) = [] :: splitChar sep r := by
  simp [splitChar, splitRuns]

/-- Splitting peels a separator-free first segment off at the first
separator. -/
theorem splitChar_append_sep (sep : Char) (t r : List Char) (h : sep ∉ t) :
    splitChar sep (t ++ sep :: r) = t :: splitChar sep r := by
  induction t with
  | nil => simpa using splitChar_cons_sep sep r
  | cons c t' ih =>
    have hc : (c != sep) = true := by
      simp only [bne_iff_ne]
      exact fun e => h (e ▸ List.mem_cons_self c t')
    have ht' : sep ∉ t' := fun m => h (List.mem_cons_of_mem c m)
    simp only [List.cons_append, splitChar, splitRuns, hc, if_true, List.append_eq]
    have hih := ih ht'
    simp only [splitChar] at hih
    rw [hih]

/-- replace(',', " ") leaves a comma-free list unchanged. -/
theorem map_commaToSpace_id (x : List Char) (h : ',' ∉ x) :
    x.map commaToSpace = x := by
  induction x with
  | nil => rfl
  | cons c r ih =>
    have hc : c ≠ ',' := fun e => h (e ▸ List.mem_cons_self c r)
    have hr : ',' ∉ r := fun m => h (List.mem_cons_of_mem c m)
    simp [commaToSpace, hc, ih hr]

/-- Tokenizing a ", "-joined list of well-formed tags — comma replaced by
space, split on spaces (the doubled separator produces empty segments),
empties dropped — recovers exactly the tags. -/
theorem visitTokens_joinSep :
    ∀ ls : List (List Char), (∀ x ∈ ls, x ≠ [] ∧ ' ' ∉ x ∧ ',' ∉ x) →
      ((splitChar ' ' ((joinSep ls).map commaToSpace)).filter (fun t => t ≠ [])) = ls := by
  intro ls
  induction ls with
  | nil =>
    intro _
    rfl
  | cons x tl ih =>
    intro h
    obtain ⟨hx, hsp, hcm⟩ := h x (by simp)
    cases tl with
    | nil =>
      rw [show joinSep [x] = x from rfl, map_commaToSpace_id x hcm,
        splitChar_no_sep ' ' x hsp]
      simp [hx]
    | cons y tl' =>
      have hrest : ∀ z ∈ y :: tl', z ≠ [] ∧ ' ' ∉ z ∧ ',' ∉ z :=
        fun z hz => h z (List.mem_cons_of_mem x hz)
      rw [show joinSep (x :: y :: tl') = x ++ ',' :: ' ' :: joinSep (y :: tl') from rfl]
      rw [List.map_append, map_commaToSpace_id x hcm]
      rw [show List.map commaToSpace (',' :: ' ' :: joinSep (y :: tl')) =
        ' ' :: ' ' :: List.map commaToSpace (joinSep (y :: tl')) from by simp [commaToSpace]]
      rw [splitChar_append_sep ' ' x _ hsp, splitChar_cons_sep]
      have hih := ih hrest
      simp only [decide_not] at hih
      simp [hx, hih]

/-- visit_str inverts the ", "-join of well-formed tags. -/
theorem visitStr_sepJoin (xs : List String) (h : wellFormedTags xs) :
    visitStr (sepJoin xs) = xs := by
  unfold visitStr sepJoin
  rw [show (String.mk (joinSep (xs.map (fun x => x.toList)))).toList =
    joinSep (xs.map (fun x => x.toList)) from rfl]
  rw [visitTokens_joinSep (xs.map (fun x => x.toList))
    (fun z hz => by
      obtain ⟨x, hxm, hxe⟩ := List.mem_map.mp hz
      subst hxe
      exact h x hxm)]
  rw [List.map_map]
  rw [show ((fun cs => String.mk cs) ∘ fun x : String => x.toList) = id from
    funext fun x => rfl]
  exact List.map_id xs

/-- C7 (amended): front-matter tag normalization maps a
delimiter-separated string of well-formed tags (commas and/or spaces,
repeated separators collapsed, empty tokens dropped) and a sequence —
inline and indented sequences are the same sequence value — to the same
ordered list; every token produced from a string is non-empty; a bare
tags key (null) and an absent key normalize to absent; but an explicitly
empty string and an explicitly empty sequence normalize to some empty
list, not to absent. -/
theorem tags_normalization :
    (∀ xs, wellFormedTags xs →
        parseTagsField (some (.str (sepJoin xs))) = parseTagsField (some (.seq xs))) ∧
    (∀ s, ∀ t ∈ (parseTagsField (some (.str s))).getD [], t ≠ "") ∧
    parseTagsField (some .nullV) = none ∧
    parseTagsField none = none ∧
    parseTagsField (some (.str "")) = some [] ∧
    parseTagsField (some (.seq [])) = some [] := by
  refine ⟨?_, ?_, rfl, rfl, by decide, rfl⟩
  · intro xs h
    show some (visitStr (sepJoin xs)) = some xs
    rw [visitStr_sepJoin xs h]
  · intro s t ht
    simp only [parseTagsField, maybeVecOfStrings, Option.getD, visitStr] at ht
    obtain ⟨cs, hcs, hte⟩ := List.mem_map.mp ht
    subst hte
    have hne : cs ≠ [] := by simpa using (List.of_mem_filter hcs)
    intro he
    exact hne (congrArg String.data he)

/-- C7 witness: the delimiter string "tag1, tag2" and the sequence
["tag1", "tag2"] normalize identically. -/
theorem tags_normalization_witness :
    parseTagsField (some (.str (sepJoin ["tag1", "tag2"]))) =
      parseTagsField (some (.seq ["tag1", "tag2"])) :=
  tags_normalization.1 ["tag1", "tag2"] (by unfold wellFormedTags; decide)

end MarkdownDb
